import Mathlib

/-!
Verification development for the protobuf-to-Python code generator in
`src/betterproto/plugin.py`.

The Python source is shallowly embedded below.  Python strings are Lean
`String`s, but every Python string operation is implemented here over
`String.data` (a `List Char`), so that all definitions reduce inside the
kernel.  Python's ASCII-only behaviour of `str.lower`, `str.upper` tests
and `str.strip` is the behaviour modelled (the schemas handled by the
plugin are ASCII identifiers).  Python `set`s of strings are modelled as
duplicate-free insertion-ordered lists (`setAdd`); the only set
operations the source performs are `add` and final `sorted(...)`.
Exceptions (`NotImplementedError` for unknown field types and for
client-streaming methods, `IndexError` for the `nested.field[0]` /
`nested.field[1]` accesses) are modelled with `Except Err`.
-/

/-- Python `str.lstrip(chars)`: drop the longest prefix of characters each of
which occurs in `chars` (a character *set*, not a prefix — this is the
semantics of the CPython builtin used at `plugin.py:37`). -/
def pyLstrip (s chars : String) : String :=
  ⟨s.data.dropWhile (fun c => chars.data.contains c)⟩

/-- Python `str.rstrip(chars)`. -/
def pyRstrip (s chars : String) : String :=
  ⟨(s.data.reverse.dropWhile (fun c => chars.data.contains c)).reverse⟩

/-- Python `str.strip(chars)` (e.g. `.strip('"')` at `plugin.py:297`). -/
def pyStrip (s chars : String) : String :=
  pyRstrip (pyLstrip s chars) chars

/-- The ASCII whitespace characters stripped by Python `str.strip()` with no
argument and recognised by `textwrap`'s whitespace munging. -/
def wsChars : List Char := [' ', '\t', '\n', '\r', '\x0B', '\x0C']

/-- Python `str.strip()` with no argument: strip whitespace on both sides. -/
def pyStripWs (s : String) : String :=
  ⟨((s.data.dropWhile (fun c => wsChars.contains c)).reverse.dropWhile
      (fun c => wsChars.contains c)).reverse⟩

/-- Python `str.replace(c, "")` for a single-character pattern: remove every
occurrence of the character (used for `.replace(".", "")` at `plugin.py:37`
and `.replace("_", "")` at `plugin.py:205`). -/
def pyRemoveChar (s : String) (c : Char) : String :=
  ⟨s.data.filter (fun a => a != c)⟩

/-- Python `str.replace(a, b)` for single-character pattern and replacement
(used for `.replace(os.path.sep, ".")` at `plugin.py:144`). -/
def pyReplaceChar (s : String) (a b : Char) : String :=
  ⟨s.data.map (fun c => if c = a then b else c)⟩

/-- Python `str.lower()` (ASCII). -/
def pyLower (s : String) : String := ⟨s.data.map Char.toLower⟩

/-- Python `s.startswith(pre)`. -/
def pyStartsWith (s pre : String) : Bool := pre.data.isPrefixOf s.data

/-- Python `c in s` membership test for a single character
(the `"." in type_name` test at `plugin.py:39`). -/
def pyIn (c : Char) (s : String) : Bool := s.data.contains c

/-- Python `len(s)`. -/
def pyLen (s : String) : Nat := s.data.length

/-- Python `s[n:]`. -/
def pyDrop (s : String) (n : Nat) : String := ⟨s.data.drop n⟩

/-- Helper for `pySplitChar`: split a character list at every occurrence of
`sep`, keeping empty groups, as Python `str.split(sep)` does. -/
def splitCharAux (sep : Char) : List Char → List (List Char)
  | [] => [[]]
  | c :: rest =>
    match splitCharAux sep rest with
    | [] => [[]]
    | g :: gs => if c = sep then [] :: g :: gs else (c :: g) :: gs

/-- Python `s.split(sep)` for a single-character separator
(`type_name.split(".")` at `plugin.py:42` and `plugin.py:203`). -/
def pySplitChar (s : String) (sep : Char) : List String :=
  (splitCharAux sep s.data).map (fun l => ⟨l⟩)

/-- Lexicographic code-point comparison, the order Python `sorted` uses on
strings. -/
def listCharLe : List Char → List Char → Bool
  | [], _ => true
  | _ :: _, [] => false
  | a :: as, b :: bs => if a = b then listCharLe as bs else Nat.blt a.toNat b.toNat

/-- Python `a <= b` on strings. -/
def strLe (a b : String) : Bool := listCharLe a.data b.data

/-- Insertion step of an insertion sort by `strLe`. -/
def insertSorted (x : String) : List String → List String
  | [] => [x]
  | y :: ys => if strLe x y then x :: y :: ys else y :: insertSorted x ys

/-- Python `sorted(...)` on a collection of strings (`plugin.py:329-330`). -/
def sortStrings (l : List String) : List String := l.foldr insertSorted []

/-- Python `set.add` on the list model of a string set: append if absent. -/
def setAdd (s : List String) (x : String) : List String :=
  if s.contains x then s else s ++ [x]

/-- `snake_case` (`plugin.py:23-26`): the regex inserts an underscore before
every uppercase letter that is preceded by a lowercase letter or followed by a
non-uppercase character; each match consumes one character and the lookaround
context is the original string, so the substitution is a per-character map.
`prev` is the character preceding the current one in the original string. -/
def snakeGo (prev : Option Char) : List Char → List Char
  | [] => []
  | c :: rest =>
    let cond := c.isUpper &&
      ((match prev with | some p => p.isLower | none => false) ||
       (match rest with | d :: _ => !d.isUpper | [] => false))
    (if cond then ['_', c] else [c]) ++ snakeGo (some c) rest

/-- Python `snake_case(value)` = `re.sub(...).lower().strip("_")`. -/
def snake_case (value : String) : String :=
  pyStrip (pyLower ⟨snakeGo none value.data⟩) "_"

/-- Python `str.expandtabs(8)` as performed by `textwrap`: a tab advances the
column to the next multiple of 8; newline and carriage return reset it. -/
def expandTabsGo (col : Nat) : List Char → List Char
  | [] => []
  | c :: rest =>
    if c = '\t' then
      let n := 8 - col % 8
      List.replicate n ' ' ++ expandTabsGo (col + n) rest
    else if c = '\n' ∨ c = '\r' then c :: expandTabsGo 0 rest
    else c :: expandTabsGo (col + 1) rest

/-- `textwrap`'s whitespace munging with the default options: expand tabs,
then replace every whitespace character by a single space. -/
def pyMunge (s : String) : String :=
  ⟨(expandTabsGo 0 s.data).map (fun c => if wsChars.contains c then ' ' else c)⟩

/-- Split a munged character list into maximal runs of spaces / non-spaces.
This models `textwrap`'s chunk splitting; the hyphen-aware sub-splitting of
`textwrap`'s word-separator regex is not modelled (the break-on-hyphen search
of `_handle_long_word` below is). -/
def chunkRuns : List Char → List (List Char)
  | [] => []
  | c :: rest =>
    match chunkRuns rest with
    | [] => [[c]]
    | r :: rs =>
      match r with
      | [] => [c] :: r :: rs
      | d :: _ => if (c == ' ') == (d == ' ') then (c :: r) :: rs else [c] :: r :: rs

/-- A chunk consisting only of whitespace (`chunk.strip() == ''` in
`textwrap._wrap_chunks`; after munging all whitespace is `' '`). -/
def chunkIsSpace (c : String) : Bool := c.data.all (fun ch => ch == ' ')

/-- Total length of the chunks already placed on the current line. -/
def sumLen (l : List String) : Nat := (l.map (fun s => s.data.length)).sum

/-- Greedy phase of `textwrap._wrap_chunks`: move chunks onto the current line
while the line stays within `width`. -/
def greedyTake (width curLen : Nat) : List String → (List String × List String)
  | [] => ([], [])
  | c :: cs =>
    if curLen + c.data.length ≤ width then
      let (t, r) := greedyTake width (curLen + c.data.length) cs
      (c :: t, r)
    else ([], c :: cs)

/-- `chunk.rfind('-', 0, bound)`: index of the last hyphen strictly before
`bound`, if any. -/
def rfindHyphenLt (cs : List Char) (bound : Nat) : Option Nat :=
  (((cs.take bound).enum.filter (fun p => p.2 == '-')).getLast?).map (fun p => p.1)

/-- `textwrap._handle_long_word` with `break_long_words=True` and
`break_on_hyphens=True`: cut the over-long chunk at the remaining space on the
line, preferring a cut just after the last hyphen when one is preceded by a
non-hyphen character. -/
def handleLongWord (width : Nat) (cur : List String) (c : String) :
    List String × String :=
  let space_left := if width < 1 then 1 else width - sumLen cur
  let e :=
    if c.data.length > space_left then
      match rfindHyphenLt c.data space_left with
      | some h => if 0 < h ∧ (c.data.take h).any (fun ch => ch != '-') then h + 1 else space_left
      | none => space_left
    else space_left
  (cur ++ [⟨c.data.take e⟩], ⟨c.data.drop e⟩)

/-- The loop of `textwrap._wrap_chunks` with the default options
(`drop_whitespace=True`, empty indents, no `max_lines`).  The fuel argument
only bounds the recursion; every iteration consumes a chunk or shortens the
leading over-long chunk, so the fuel chosen in `pyWrap` is never exhausted. -/
def wrapGo (width : Nat) : Nat → List String → List String → List String
  | 0, _, lines => lines.reverse
  | _ + 1, [], lines => lines.reverse
  | fuel + 1, chunks0, lines =>
    let chunks1 :=
      match chunks0, lines with
      | c :: cs, _ :: _ => if chunkIsSpace c then cs else c :: cs
      | cs, _ => cs
    let pair0 := greedyTake width 0 chunks1
    let pair1 :=
      match pair0.2 with
      | c :: cs =>
        if c.data.length > width then
          let cu := handleLongWord width pair0.1 c
          (cu.1, cu.2 :: cs)
        else (pair0.1, pair0.2)
      | [] => (pair0.1, ([] : List String))
    let cur2 :=
      match pair1.1.getLast? with
      | some lc => if chunkIsSpace lc then pair1.1.dropLast else pair1.1
      | none => pair1.1
    let lines1 := if cur2.isEmpty then lines else String.join cur2 :: lines
    wrapGo width fuel pair1.2 lines1

/-- Python `textwrap.wrap(text, width)` with the default options, as invoked
at `plugin.py:113-115`. -/
def pyWrap (width : Nat) (text : String) : List String :=
  let munged := pyMunge text
  let chunks := (chunkRuns munged.data).map (fun r => (⟨r⟩ : String))
  wrapGo width (munged.data.length + chunks.length + 1) chunks []

/-- `os.path.splitext(p)[0]` with POSIX separator `/`: cut at the last dot of
the final path component, unless only dots precede it there
(used at `plugin.py:144`). -/
def pySplitextRoot (s : String) : String :=
  let cs := s.data
  match ((cs.enum.filter (fun p => p.2 == '.')).getLast?).map (fun p => p.1) with
  | none => s
  | some d =>
    let start := match ((cs.enum.filter (fun p => p.2 == '/')).getLast?).map (fun p => p.1) with
      | some k => k + 1
      | none => 0
    if d < start then s
    else if ((cs.drop start).take (d - start)).any (fun ch => ch != '.') then ⟨cs.take d⟩
    else s

-- sanity checks for the Python string model
example : pyLstrip "foo.bar.arena" "foo.bar" = "ena" := by decide
example : pyLstrip "pkgfoo.Bar" "pkg" = "foo.Bar" := by decide
example : pySplitChar "a.b" '.' = ["a", "b"] := by decide
example : pySplitChar "" '.' = [""] := by decide
example : snake_case "SayHello" = "say_hello" := by decide
example : snake_case "getHTTPResponseX" = "get_http_response_x" := by decide
example : snake_case "ABc" = "a_bc" := by decide
example : pyWrap 75 "Hello world" = ["Hello world"] := by decide
example : pyWrap 5 "ab cd ef" = ["ab cd", "ef"] := by decide
example : pyWrap 5 "aaaaaaaa" = ["aaaaa", "aaa"] := by decide
example : pyWrap 75 "a  b" = ["a  b"] := by decide
example : pyWrap 75 "" = [] := by decide
example : pyWrap 75 "   " = [] := by decide
example : pySplitextRoot "a/b.proto" = "a/b" := by decide
example : pySplitextRoot "a/.proto" = "a/.proto" := by decide
example : pySplitextRoot "a.b/c" = "a.b/c" := by decide
example : sortStrings ["b", "a", "c"] = ["a", "b", "c"] := by decide

/-!
## Descriptor data model

Lean renderings of the `google.protobuf.descriptor_pb2` messages the plugin
reads.  Field `type` values are the wire-format `FieldDescriptorProto.Type`
enum numbers (1 = double … 18 = sint64); `label` 3 is `LABEL_REPEATED`.
`DescriptorProto.map_entry` stands for `options.map_entry`.  Because Lean
4.14 cannot perform structural recursion through a nested
`List DescriptorProto`, the list of nested message types is represented by
the isomorphic `DescriptorList`.
-/

structure FieldDescriptorProto where
  name : String
  number : Nat
  type : Nat
  type_name : String
  label : Nat
  deriving DecidableEq, Repr

structure EnumValueDescriptorProto where
  name : String
  number : Int
  deriving DecidableEq, Repr

structure EnumDescriptorProto where
  name : String
  value : List EnumValueDescriptorProto
  deriving DecidableEq, Repr

mutual
inductive DescriptorProto where
  | mk (name : String) (field : List FieldDescriptorProto)
       (nested_type : DescriptorList) (enum_type : List EnumDescriptorProto)
       (map_entry : Bool)
inductive DescriptorList where
  | nil
  | cons (head : DescriptorProto) (tail : DescriptorList)
end

def DescriptorProto.name : DescriptorProto → String
  | .mk n _ _ _ _ => n

def DescriptorProto.field : DescriptorProto → List FieldDescriptorProto
  | .mk _ f _ _ _ => f

def DescriptorProto.nested_type : DescriptorProto → DescriptorList
  | .mk _ _ ns _ _ => ns

def DescriptorProto.enum_type : DescriptorProto → List EnumDescriptorProto
  | .mk _ _ _ es _ => es

def DescriptorProto.map_entry : DescriptorProto → Bool
  | .mk _ _ _ _ me => me

/-- View a `DescriptorList` as the `List DescriptorProto` it stands for. -/
def DescriptorList.toList : DescriptorList → List DescriptorProto
  | .nil => []
  | .cons d t => d :: t.toList

structure MethodDescriptorProto where
  name : String
  input_type : String
  output_type : String
  client_streaming : Bool
  server_streaming : Bool
  deriving DecidableEq, Repr

structure ServiceDescriptorProto where
  name : String
  method : List MethodDescriptorProto
  deriving DecidableEq, Repr

/-- One entry of `source_code_info.location`.  `trailing_comments` is carried
although `get_comment` never reads it (the plugin ignores trailing
comments). -/
structure SourceCodeLocation where
  path : List Nat
  leading_comments : String
  trailing_comments : String
  deriving DecidableEq, Repr

structure FileDescriptorProto where
  name : String
  package : String
  message_type : DescriptorList
  enum_type : List EnumDescriptorProto
  service : List ServiceDescriptorProto
  source_code_info : List SourceCodeLocation

structure CodeGeneratorRequest where
  proto_file : List FileDescriptorProto

/-- The errors the plugin can raise while compiling: `NotImplementedError`
for client-streaming methods (`plugin.py:292`) and for unknown field types
(`plugin.py:69`), and `IndexError` for the `nested.field[0]` /
`nested.field[1]` accesses (`plugin.py:219,225`). -/
inductive Err where
  | clientStreaming
  | unknownType (n : Nat)
  | indexError
  deriving DecidableEq, Repr

/-- A Python scalar produced by `get_py_zero`/field compilation: the integer
literal `0`, the (dead-code) float literal `0.0`, or a string such as
`"False"`, `'""'`, `"None"`, `'b""'`, `"[]"`. -/
inductive PyScalar where
  | pyInt (n : Int)
  | pyFloatZero
  | pyStr (s : String)
  deriving DecidableEq, Repr

/-!
## Leaf functions of the plugin
-/

/-- `get_ref_type` (`plugin.py:29-46`): resolve a dotted proto type reference
to a Python type name, adding an import when the reference is resolved as a
cross-package module-qualified name.  Returns the resolved name together
with the updated import set. -/
def get_ref_type (package : String) (imports : List String) (type_name : String) :
    String × List String :=
  let tn1 := pyLstrip type_name "."
  let tn2 :=
    if pyStartsWith tn1 package then
      "\"" ++ pyRemoveChar (pyLstrip (pyLstrip tn1 package) ".") '.' ++ "\""
    else tn1
  if pyIn '.' tn2 then
    let parts := pySplitChar tn2 '.'
    (parts.getD (parts.length - 2) "" ++ "." ++ parts.getD (parts.length - 1) "",
     setAdd imports
       ("from ." ++ String.intercalate "." (parts.take (parts.length - 2)) ++
        " import " ++ parts.getD (parts.length - 2) ""))
  else (tn2, imports)

/-- `py_type` (`plugin.py:49-69`): map a wire field-type tag to a Python type
string; raises `NotImplementedError` for tags outside the classification
table.  The `message` parameter is accepted and ignored exactly as in the
source. -/
def py_type (package : String) (imports : List String) (message : DescriptorProto)
    (descriptor : FieldDescriptorProto) : Except Err (String × List String) :=
  if descriptor.type ∈ [1, 2, 6, 7, 15, 16] then .ok ("float", imports)
  else if descriptor.type ∈ [3, 4, 5, 13, 17, 18] then .ok ("int", imports)
  else if descriptor.type = 8 then .ok ("bool", imports)
  else if descriptor.type = 9 then .ok ("str", imports)
  else if descriptor.type ∈ [11, 14] then
    .ok (get_ref_type package imports descriptor.type_name)
  else if descriptor.type = 12 then .ok ("bytes", imports)
  else .error (.unknownType descriptor.type)

/-- `get_py_zero` (`plugin.py:72-85`): the default ("zero") value expression
for a field-type tag.  The first branch tests membership in the *empty* list,
exactly as the source does (`if type_num in []:`), so the float zero is dead
code and every numeric tag falls through to the integer `0`. -/
def get_py_zero (type_num : Nat) : PyScalar :=
  if type_num ∈ ([] : List Nat) then .pyFloatZero
  else if type_num = 8 then .pyStr "False"
  else if type_num = 9 then .pyStr "\"\""
  else if type_num = 11 then .pyStr "None"
  else if type_num = 12 then .pyStr "b\"\""
  else .pyInt 0

/-- `f.Type.Name(n)` of `descriptor_pb2`: the symbolic name of a field-type
tag (raises for other values; unreachable here because `py_type` validates
the tag first — the total default `""` is never produced by the pipeline). -/
def typeNameFull : Nat → String
  | 1 => "TYPE_DOUBLE" | 2 => "TYPE_FLOAT" | 3 => "TYPE_INT64" | 4 => "TYPE_UINT64"
  | 5 => "TYPE_INT32" | 6 => "TYPE_FIXED64" | 7 => "TYPE_FIXED32" | 8 => "TYPE_BOOL"
  | 9 => "TYPE_STRING" | 10 => "TYPE_GROUP" | 11 => "TYPE_MESSAGE" | 12 => "TYPE_BYTES"
  | 13 => "TYPE_UINT32" | 14 => "TYPE_ENUM" | 15 => "TYPE_SFIXED32" | 16 => "TYPE_SFIXED64"
  | 17 => "TYPE_SINT32" | 18 => "TYPE_SINT64"
  | _ => ""

/-- An element yielded by `traverse`: a (renamed) message or enum. -/
inductive TravItem where
  | msg (d : DescriptorProto)
  | enum (e : EnumDescriptorProto)

/-- The name of a yielded item, as the consumer loop reads it. -/
def TravItem.itemName : TravItem → String
  | .msg d => d.name
  | .enum e => e.name

mutual
/-- One message's contribution to `traverse` (`plugin.py:88-106`).  The Python
generator mutates names in place: when an item is yielded at nesting depth
`k`, the `n.name = item.name + n.name` statement of every enclosing frame
runs before the consumer sees it, and the enclosing `item.name`s have already
been rewritten by *their* enclosing frames.  Functionally this means every
yield of this frame receives the accumulated prefix `pref` (the concatenation
of the already-flattened names of all enclosing messages), the message itself
is yielded with name `pref ++ name`, each of its enums with name
`pref ++ (pref ++ name) ++ enumName` (the frame's own `item.name + enum.name`
rewrite, then the enclosing frames' prefixes), and the nested recursion runs
with accumulated prefix `pref ++ (pref ++ name)`.  All enums of a message are
yielded with the same path `path ++ [i, 4]` (the source appends no enum
index).  The yielded message carries its original fields, nested types and
enums: the consumer processes it before any of those are renamed. -/
def travMsg (pref : String) (path : List Nat) (i : Nat) :
    DescriptorProto → List (TravItem × List Nat)
  | .mk nm fields nested enums me =>
    let F := pref ++ nm
    (TravItem.msg (.mk F fields nested enums me), path ++ [i])
      :: (enums.map (fun e =>
            (TravItem.enum { e with name := pref ++ F ++ e.name }, path ++ [i, 4]))
          ++ travForest (pref ++ F) (path ++ [i, 3]) 0 nested)

/-- `_traverse(path, items)` over a sibling list, with `i` the enumeration
index and `pref` the accumulated prefix applied by the enclosing frames. -/
def travForest (pref : String) (path : List Nat) (i : Nat) :
    DescriptorList → List (TravItem × List Nat)
  | .nil => []
  | .cons d rest => travMsg pref path i d ++ travForest pref path (i + 1) rest
end

/-- `traverse(proto_file)` (`plugin.py:104-106`): top-level enums (yielded
unrenamed, path `[5, i]`) followed by the message tree (paths rooted at
`[4]`). -/
def traverse (proto_file : FileDescriptorProto) : List (TravItem × List Nat) :=
  (proto_file.enum_type.enum.map (fun p => (TravItem.enum p.2, [5, p.1])))
    ++ travForest "" [4] 0 proto_file.message_type

/-- Python `path[-k]` on the plugin's integer paths, for paths of length at
least `k` (shorter paths would raise `IndexError` in Python; `get_comment`
only evaluates these inside a matched location, and every matchable location
path there has length ≥ 2, resp. ≥ 4 when the `path[-2] == 2` test
succeeds). -/
def pyIdxFromEnd (l : List Nat) (k : Nat) : Nat := l.getD (l.length - k) 0

/-- `get_comment` (`plugin.py:109-129`): find the first source-code location
whose path equals `path` and which carries a non-empty leading comment
(trailing comments are never consulted); strip it, remove newlines, wrap to
75 columns, and render either as per-field `#` line comments (when
`path[-2] == 2 and path[-4] != 6`) or as a docstring block — one-line quoted
form for a single wrapped line shorter than 70 characters, a multi-line
block otherwise. -/
def get_comment (proto_file : FileDescriptorProto) (path : List Nat) : String :=
  match proto_file.source_code_info.find?
      (fun sci => (sci.path == path) && (sci.leading_comments != "")) with
  | none => ""
  | some sci =>
    let lines := pyWrap 75 (pyRemoveChar (pyStripWs sci.leading_comments) '\n')
    if pyIdxFromEnd path 2 = 2 ∧ pyIdxFromEnd path 4 ≠ 6 then
      "    # " ++ String.intercalate "    # " lines
    else
      if lines.length = 1 ∧ pyLen (lines.getD 0 "") < 70 then
        "    \"\"\"" ++ pyStrip (lines.getD 0 "") "\"" ++ "\"\"\""
      else
        "    \"\"\"\n    " ++ String.intercalate "\n    " lines ++ "\n    \"\"\""

/-!
## Per-field compilation (`generate_code`, `plugin.py:192-258`)
-/

/-- A compiled field: the property dict appended at `plugin.py:245-258`. -/
structure Property where
  name : String
  number : Nat
  comment : String
  proto_type : Nat
  field_type : String
  map_types : Option (String × String)
  type : String
  zero : PyScalar
  repeated : Bool
  packed : Bool
  deriving DecidableEq, Repr

/-- The mutable state of the map-detection block (`plugin.py:201-233`):
the current target type `t`, `field_type`, `map_types`, and the unit's
import/typing-import sets. -/
structure MapSt where
  t : String
  field_type : String
  map_types : Option (String × String)
  imports : List String
  typing_imports : List String
  deriving DecidableEq, Repr

/-- Python `nested.name.replace("_", "").lower()` / the same normalisation of
the field name (`plugin.py:205` and `plugin.py:210`). -/
def normName (s : String) : String := pyLower (pyRemoveChar s '_')

/-- Python `f.type_name.split(".").pop().lower()` (`plugin.py:203`): the last
dotted component of the reference, lowercased (note: underscores are *not*
removed here, unlike `normName`). -/
def refLast (tn : String) : String := pyLower ((pySplitChar tn '.').getLastD "")

/-- The `for nested in item.nested_type` loop of the map-detection block
(`plugin.py:208-233`).  There is no `break`: every nested message whose
normalised name equals `map_entry` and whose `options.map_entry` flag is set
rewrites the state in turn.  `nested.field[0]` / `nested.field[1]` raise
`IndexError` when absent, in the evaluation order of the source (index 0,
key type, index 1, value type). -/
def mapScan (package : String) (item : DescriptorProto) (map_entry : String)
    (st : MapSt) : List DescriptorProto → Except Err MapSt
  | [] => .ok st
  | nested :: rest =>
    if normName nested.name = map_entry then
      if nested.map_entry then
        match nested.field.get? 0 with
        | none => .error .indexError
        | some f0 =>
          match py_type package st.imports item f0 with
          | .error e => .error e
          | .ok (k, imps1) =>
            match nested.field.get? 1 with
            | none => .error .indexError
            | some f1 =>
              match py_type package imps1 item f1 with
              | .error e => .error e
              | .ok (v, imps2) =>
                mapScan package item map_entry
                  { t := "Dict[" ++ k ++ ", " ++ v ++ "]", field_type := "map",
                    map_types := some (typeNameFull f0.type, typeNameFull f1.type),
                    imports := imps2,
                    typing_imports := setAdd st.typing_imports "Dict" } rest
      else mapScan package item map_entry st rest
    else mapScan package item map_entry st rest

/-- The set of tags marked packed for repeated fields (`plugin.py:242`);
note it omits 14 (enum). -/
def packedTags : List Nat := [1, 2, 3, 4, 5, 6, 7, 8, 13, 15, 16, 17, 18]

/-- The guard of the map-detection block (`plugin.py:201-207`): only
message-reference fields whose referenced simple name, lowercased, equals the
underscore-stripped lowercased field name followed by `"entry"` are scanned
against the declaring message's nested types. -/
def detectMap (package : String) (item : DescriptorProto) (f : FieldDescriptorProto)
    (st : MapSt) : Except Err MapSt :=
  if f.type = 11 then
    let message_type := refLast f.type_name
    let map_entry := normName f.name ++ "entry"
    if message_type = map_entry then
      mapScan package item map_entry st item.nested_type.toList
    else .ok st
  else .ok st

/-- The repeated/packed rewrite (`plugin.py:235-243`) and the property dict
construction (`plugin.py:245-258`): a repeated non-map field becomes a
`List[...]` with zero `"[]"` and is packed exactly when its tag is in
`packedTags`; otherwise the values from the scan state stand. -/
def finishField (f : FieldDescriptorProto) (comment : String) (zero : PyScalar)
    (st : MapSt) : Property × List String × List String :=
  if f.label = 3 ∧ st.field_type ≠ "map" then
    ({ name := f.name, number := f.number, comment := comment,
       proto_type := f.type, field_type := st.field_type,
       map_types := st.map_types, type := "List[" ++ st.t ++ "]",
       zero := .pyStr "[]", repeated := true,
       packed := decide (f.type ∈ packedTags) },
     st.imports, setAdd st.typing_imports "List")
  else
    ({ name := f.name, number := f.number, comment := comment,
       proto_type := f.type, field_type := st.field_type,
       map_types := st.map_types, type := st.t,
       zero := zero, repeated := false, packed := false },
     st.imports, st.typing_imports)

/-- The body of the `for i, f in enumerate(item.field)` loop
(`plugin.py:192-258`) for one field: compute the target type (`py_type`),
zero value, `field_type` label, map detection, and the repeated/packed
rewrite; returns the property dict and the updated import/typing-import
sets. -/
def compileField (package : String) (imports typing_imports : List String)
    (item : DescriptorProto) (f : FieldDescriptorProto) (comment : String) :
    Except Err (Property × List String × List String) :=
  match py_type package imports item f with
  | .error e => .error e
  | .ok (t0, imports1) =>
    match detectMap package item f
        { t := t0, field_type := pyDrop (pyLower (typeNameFull f.type)) 5,
          map_types := none, imports := imports1, typing_imports := typing_imports } with
    | .error e => .error e
    | .ok st => .ok (finishField f comment (get_py_zero f.type) st)

/-!
## Per-unit compilation state and the traversal consumer
-/

/-- A compiled message (`data` dict of the `DescriptorProto` branch,
`plugin.py:176-190`). -/
structure CMessage where
  name : String
  type : String
  comment : String
  properties : List Property
  deriving DecidableEq, Repr

structure CEnumEntry where
  name : String
  value : Int
  comment : String
  deriving DecidableEq, Repr

/-- A compiled enum (`plugin.py:262-279`). -/
structure CEnum where
  name : String
  type : String
  comment : String
  entries : List CEnumEntry
  deriving DecidableEq, Repr

/-- A compiled method (`plugin.py:306-322`). -/
structure CMethod where
  name : String
  py_name : String
  comment : String
  route : String
  input : String
  input_message : Option CMessage
  output : String
  client_streaming : Bool
  server_streaming : Bool
  deriving DecidableEq, Repr

structure CService where
  name : String
  comment : String
  methods : List CMethod
  deriving DecidableEq, Repr

/-- The mutable parts of the per-unit `output` dict while a unit's files are
being processed (`plugin.py:156-164`). -/
structure UnitSt where
  imports : List String
  typing_imports : List String
  messages : List CMessage
  enums : List CEnum
  services : List CService
  deriving DecidableEq, Repr

/-- The field loop `for i, f in enumerate(item.field)` (`plugin.py:192`),
threading the import sets and collecting the property dicts. -/
def compileFields (package : String) (pf : FileDescriptorProto) (path : List Nat)
    (item : DescriptorProto) (imports typing_imports : List String) (i : Nat) :
    List FieldDescriptorProto → Except Err (List Property × List String × List String)
  | [] => .ok ([], imports, typing_imports)
  | f :: rest =>
    match compileField package imports typing_imports item f
        (get_comment pf (path ++ [2, i])) with
    | .error e => .error e
    | .ok (prop, imps, typs) =>
      match compileFields package pf path item imps typs (i + 1) rest with
      | .error e => .error e
      | .ok (props, imps2, typs2) => .ok (prop :: props, imps2, typs2)

/-- The body of `for item, path in traverse(proto_file)` (`plugin.py:173-279`)
for one yielded item: messages flagged `options.map_entry` are skipped
(`plugin.py:180-182`, "we just use dicts"), other messages are compiled and
appended, enums are rendered with their entries. -/
def processItem (package : String) (pf : FileDescriptorProto) (st : UnitSt) :
    TravItem × List Nat → Except Err UnitSt
  | (.msg item, path) =>
    if item.map_entry then .ok st
    else
      match compileFields package pf path item st.imports st.typing_imports 0 item.field with
      | .error e => .error e
      | .ok (props, imps, typs) =>
        .ok { st with
              imports := imps
              typing_imports := typs
              messages := st.messages ++
                [{ name := item.name, type := "Message",
                   comment := get_comment pf path, properties := props }] }
  | (.enum e, path) =>
    .ok { st with
          enums := st.enums ++
          [{ name := e.name, type := "Enum", comment := get_comment pf path,
             entries := e.value.enum.map (fun p =>
               { name := p.2.name, value := p.2.number,
                 comment := get_comment pf (path ++ [2, p.1]) }) }] }

/-- Fold `processItem` over the traversal sequence of one file. -/
def processItems (package : String) (pf : FileDescriptorProto) (st : UnitSt) :
    List (TravItem × List Nat) → Except Err UnitSt
  | [] => .ok st
  | it :: rest =>
    match processItem package pf st it with
    | .error e => .error e
    | .ok st1 => processItems package pf st1 rest

/-!
## Service compilation and the per-unit / per-request pipeline
(`plugin.py:281-327` and `plugin.py:132-168`)
-/

/-- The `Optional` typing-import accumulation of the `input_message` search
(`plugin.py:301-303`): one `add` per field whose zero value is `"None"`. -/
def addOptionals (typs : List String) (props : List Property) : List String :=
  props.foldl (fun acc p => if p.zero = .pyStr "None" then setAdd acc "Optional" else acc) typs

/-- One non-client-streaming method's compilation (`plugin.py:294-325`):
resolve the input reference (`plugin.py:295-297`), look up the compiled
input message and accumulate `Optional` imports (`plugin.py:298-304`),
resolve the input reference a second time for the `"input"` entry and the
output reference (`plugin.py:312-318`), add `AsyncGenerator` for
server-streaming methods (`plugin.py:324-325`); returns the method dict
and the updated unit state. -/
def compileMethod (package : String) (pf : FileDescriptorProto) (i : Nat)
    (sname : String) (st : UnitSt) (j : Nat) (method : MethodDescriptorProto) :
    CMethod × UnitSt :=
  let r1 := get_ref_type package st.imports method.input_type
  let input_type := pyStrip r1.1 "\""
  let input_message := st.messages.find? (fun m => m.name == input_type)
  let typs1 :=
    match input_message with
    | some msg => addOptionals st.typing_imports msg.properties
    | none => st.typing_imports
  let r2 := get_ref_type package r1.2 method.input_type
  let r3 := get_ref_type package r2.2 method.output_type
  let typs2 := if method.server_streaming then setAdd typs1 "AsyncGenerator" else typs1
  ({ name := method.name
     py_name := snake_case method.name
     comment := get_comment pf [6, i, 2, j]
     route := "/" ++ package ++ "." ++ sname ++ "/" ++ method.name
     input := pyStrip r2.1 "\""
     input_message := input_message
     output := pyStrip r3.1 "\""
     client_streaming := method.client_streaming
     server_streaming := method.server_streaming },
   { st with imports := r3.2, typing_imports := typs2 })

/-- The `for j, method in enumerate(service.method)` loop
(`plugin.py:290-325`): raise `NotImplementedError` on a client-streaming
method, otherwise compile the method with `compileMethod` (the input
reference is resolved twice, once at `plugin.py:295-297` and again for the
`"input"` entry at `plugin.py:312-314`, exactly as in the source).  `i` is
the service index, `j` the method index, `sname` the service name. -/
def processMethods (package : String) (pf : FileDescriptorProto) (i : Nat)
    (sname : String) (st : UnitSt) (j : Nat) :
    List MethodDescriptorProto → Except Err (List CMethod × UnitSt)
  | [] => .ok ([], st)
  | method :: rest =>
    if method.client_streaming then .error .clientStreaming
    else
      match processMethods package pf i sname
          (compileMethod package pf i sname st j method).2 (j + 1) rest with
      | .error e => .error e
      | .ok (cms, st2) => .ok ((compileMethod package pf i sname st j method).1 :: cms, st2)

/-- The `for i, service in enumerate(proto_file.service)` loop
(`plugin.py:281-327`): compile the methods, then append the service dict. -/
def processServices (package : String) (pf : FileDescriptorProto) (st : UnitSt)
    (i : Nat) : List ServiceDescriptorProto → Except Err UnitSt
  | [] => .ok st
  | svc :: rest =>
    match processMethods package pf i svc.name st 0 svc.method with
    | .error e => .error e
    | .ok (cms, st1) =>
      processServices package pf
        { st1 with services := st1.services ++
            [{ name := svc.name, comment := get_comment pf [6, i], methods := cms }] }
        (i + 1) rest

/-- Processing of one schema file inside a unit (`plugin.py:168-327`):
the traversal consumer followed by the service loop. -/
def processFile (package : String) (st : UnitSt) (pf : FileDescriptorProto) :
    Except Err UnitSt :=
  match processItems package pf st (traverse pf) with
  | .error e => .error e
  | .ok st1 => processServices package pf st1 0 pf.service

/-- The `for proto_file in options["files"]` loop. -/
def processFiles (package : String) (st : UnitSt) :
    List FileDescriptorProto → Except Err UnitSt
  | [] => .ok st
  | pf :: rest =>
    match processFile package st pf with
    | .error e => .error e
    | .ok st1 => processFiles package st1 rest

/-- The finalised per-unit `output` dict handed to the template renderer
(`plugin.py:156-164`, with the import sets sorted at `plugin.py:329-330`). -/
structure UnitOut where
  package : String
  files : List String
  imports : List String
  typing_imports : List String
  messages : List CMessage
  enums : List CEnum
  services : List CService
  deriving DecidableEq, Repr

/-- Compile one unit (one `output_map` entry): process its files starting
from the empty output state, then sort the import sets. -/
def compileUnit (package : String) (files : List FileDescriptorProto) :
    Except Err UnitOut :=
  match processFiles package
      { imports := [], typing_imports := [], messages := [], enums := [], services := [] }
      files with
  | .error e => .error e
  | .ok st =>
    .ok { package := package
          files := files.map (fun f => f.name)
          imports := sortStrings st.imports
          typing_imports := sortStrings st.typing_imports
          messages := st.messages
          enums := st.enums
          services := st.services }

/-- `os.path.splitext(proto_file.name)[0].replace(os.path.sep, ".")`
(`plugin.py:144`, POSIX separator). -/
def pathToOut (name : String) : String := pyReplaceChar (pySplitextRoot name) '/' '.'

/-- Append a file to its `output_map` entry, creating the entry (which
records `proto_file.package` of the file that created it) when absent
(`plugin.py:146-148`; Python dicts preserve insertion order). -/
def addToOutputMap (acc : List (String × String × List FileDescriptorProto))
    (key : String) (pf : FileDescriptorProto) :
    List (String × String × List FileDescriptorProto) :=
  match acc with
  | [] => [(key, pf.package, [pf])]
  | (k, p, fs) :: rest =>
    if k = key then (k, p, fs ++ [pf]) :: rest
    else (k, p, fs) :: addToOutputMap rest key pf

/-- The grouping loop (`plugin.py:141-148`): each file goes to the unit named
by its package, or by its dotted path when the package is empty. -/
def buildOutputMap (files : List FileDescriptorProto) :
    List (String × String × List FileDescriptorProto) :=
  files.foldl
    (fun acc pf =>
      let out := if pf.package ≠ "" then pf.package else pathToOut pf.name
      addToOutputMap acc out pf)
    []

/-- The `for filename, options in output_map.items()` loop: compile every
unit in order, stopping at the first error.  Each result is the unit's
output key paired with the IR handed to the (external) template renderer;
the rendering itself, the `.py` path construction and the `__init__.py`
emission of `plugin.py:332-355` are outside the modelled core. -/
def compileUnits : List (String × String × List FileDescriptorProto) →
    Except Err (List (String × UnitOut))
  | [] => .ok []
  | (key, package, files) :: rest =>
    match compileUnit package files with
    | .error e => .error e
    | .ok u =>
      match compileUnits rest with
      | .error e => .error e
      | .ok us => .ok ((key, u) :: us)

/-- `generate_code(request, response)` (`plugin.py:132-355`), modelled as the
function from the request to the list of compiled units added to the
response; a raised exception is an `.error` and in that case nothing is
added to the response. -/
def generate_code (request : CodeGeneratorRequest) :
    Except Err (List (String × UnitOut)) :=
  compileUnits (buildOutputMap request.proto_file)

/-- `main()` (`plugin.py:358-377`), named `main'` because Lean reserves
`main`: parse the request, run `generate_code`, and write the serialised
response; when `generate_code` raises, the process aborts before writing, so
no response output is produced (`none`). -/
def main' (request : CodeGeneratorRequest) : Option (List (String × UnitOut)) :=
  (generate_code request).toOption

deriving instance DecidableEq for Except

/-!
## Shared concrete inputs and projections used by the claim theorems
-/

/-- A message with no fields or nested types. -/
def emptyMessage : DescriptorProto := .mk "M" [] .nil [] false

/-- Projection of a field-compilation result to `(repeated, packed)`. -/
def repeatedPackedOf (r : Except Err (Property × List String × List String)) :
    Option (Bool × Bool) :=
  r.toOption.map (fun x => (x.1.repeated, x.1.packed))

/-- Projection of a field-compilation result to its `field_type`. -/
def fieldTypeOf (r : Except Err (Property × List String × List String)) :
    Option String :=
  r.toOption.map (fun x => x.1.field_type)

/-- `Outer` containing `Inner` containing `Leaf`. -/
def c1File : FileDescriptorProto :=
  { name := "x.proto", package := "",
    message_type := .cons
      (.mk "Outer" []
        (.cons (.mk "Inner" [] (.cons (.mk "Leaf" [] .nil [] false) .nil) [] false) .nil)
        [] false)
      .nil,
    enum_type := [], service := [], source_code_info := [] }

/-- A top-level message `AB` next to `A` containing `B`: after flattening both
produce the name `AB`. -/
def c1CollideFile : FileDescriptorProto :=
  { name := "y.proto", package := "",
    message_type := .cons (.mk "AB" [] .nil [] false)
      (.cons (.mk "A" [] (.cons (.mk "B" [] .nil [] false) .nil) [] false) .nil),
    enum_type := [], service := [], source_code_info := [] }

/-!
## Structural lemmas about `finishField` / `compileField`
-/

/-- Either the repeated branch of `finishField` was taken (then the field is
repeated, zero is the empty list, the category is the scan category — not
"map" — and packedness follows `packedTags`) or the field is not repeated and
not packed. -/
theorem finishField_cases (f : FieldDescriptorProto) (comment : String)
    (zero : PyScalar) (st : MapSt) :
    ((finishField f comment zero st).1.repeated = true ∧
     (finishField f comment zero st).1.zero = .pyStr "[]" ∧
     (finishField f comment zero st).1.field_type = st.field_type ∧
     st.field_type ≠ "map" ∧
     (finishField f comment zero st).1.packed = decide (f.type ∈ packedTags) ∧
     (finishField f comment zero st).1.map_types = st.map_types) ∨
    ((finishField f comment zero st).1.repeated = false ∧
     (finishField f comment zero st).1.packed = false ∧
     (finishField f comment zero st).1.field_type = st.field_type ∧
     (finishField f comment zero st).1.map_types = st.map_types) := by
  unfold finishField
  split_ifs with h
  · exact Or.inl ⟨rfl, rfl, rfl, h.2, rfl, rfl⟩
  · exact Or.inr ⟨rfl, rfl, rfl, rfl⟩

/-- A successful `compileField` result is `finishField` applied to some scan
state. -/
theorem compileField_ok_finish (package : String) (imports typing_imports : List String)
    (item : DescriptorProto) (f : FieldDescriptorProto) (comment : String)
    (r : Property × List String × List String)
    (h : compileField package imports typing_imports item f comment = .ok r) :
    ∃ st : MapSt, r = finishField f comment (get_py_zero f.type) st := by
  unfold compileField at h
  split at h
  · nomatch h
  · split at h
    · nomatch h
    · injection h with h
      exact ⟨_, h.symm⟩

/-!
## C2 — floating-point default values
-/

/-- C2, counterexample: the claim says the computed default for the
floating-point tag `double` (1) is the floating-point zero `0.0`; it is not
(the `if type_num in []` branch is dead code). -/
theorem C2_counterexample : get_py_zero 1 ≠ PyScalar.pyFloatZero := by decide

/-- C2, amended: for every floating-point wire tag (double, float, fixed64,
fixed32, sfixed32, sfixed64) the computed default value is the *integer*
zero `0`, not the floating-point literal `0.0`. -/
theorem C2_floating_default_is_integer_zero (t : Nat)
    (h : t ∈ ([1, 2, 6, 7, 15, 16] : List Nat)) :
    get_py_zero t = PyScalar.pyInt 0 := by
  simp only [List.mem_cons, List.not_mem_nil, or_false] at h
  unfold get_py_zero
  split_ifs with h0 h1 h2 h3 h4
  · simp at h0
  · omega
  · omega
  · omega
  · omega
  · rfl

/-- Witness for C2 at the `double` tag. -/
theorem C2_witness :
    1 ∈ ([1, 2, 6, 7, 15, 16] : List Nat) ∧ get_py_zero 1 = PyScalar.pyInt 0 :=
  ⟨by decide, C2_floating_default_is_integer_zero 1 (by decide)⟩

/-!
## C4 — package-prefix stripping in `get_ref_type`
-/

/-- C4: `get_ref_type` strips by *character set* (`str.lstrip`), not by
prefix, and tests the package with `startswith` without requiring a dot
boundary.  With package `foo.bar`, the in-package reference
`.foo.bar.arena` loses the leading characters of its symbol (giving
`"ena"` instead of `"arena"`), and with package `pkg` the *other-package*
reference `.pkgfoo.Bar` is treated as local. -/
theorem C4_get_ref_type_mangles_names :
    get_ref_type "foo.bar" [] ".foo.bar.arena" = ("\"ena\"", []) ∧
    get_ref_type "pkg" [] ".pkgfoo.Bar" = ("\"fooBar\"", []) ∧
    ("\"ena\"" : String) ≠ "\"arena\"" := by
  refine ⟨by decide, by decide, by decide⟩

/-!
## C8 — unknown wire-type tags
-/

/-- C8: `py_type` fails with the fatal unknown-type error exactly outside the
recognized classification table, and succeeds on every tag in the table. -/
theorem C8_unknown_tag_fatal (package : String) (imports : List String)
    (message : DescriptorProto) (f : FieldDescriptorProto) :
    (f.type ∉ ([1, 2, 3, 4, 5, 6, 7, 8, 9, 11, 12, 13, 14, 15, 16, 17, 18] : List Nat) →
      py_type package imports message f = .error (.unknownType f.type)) ∧
    (f.type ∈ ([1, 2, 3, 4, 5, 6, 7, 8, 9, 11, 12, 13, 14, 15, 16, 17, 18] : List Nat) →
      ∃ s imps, py_type package imports message f = .ok (s, imps)) := by
  constructor
  · intro h
    simp only [List.mem_cons, List.not_mem_nil, or_false] at h
    push_neg at h
    unfold py_type
    split_ifs with h1 h2 h3 h4 h5 h6
    · exfalso; simp only [List.mem_cons, List.not_mem_nil, or_false] at h1; omega
    · exfalso; simp only [List.mem_cons, List.not_mem_nil, or_false] at h2; omega
    · omega
    · omega
    · exfalso; simp only [List.mem_cons, List.not_mem_nil, or_false] at h5; omega
    · omega
    · rfl
  · intro h
    unfold py_type
    split_ifs with h1 h2 h3 h4 h5 h6
    · exact ⟨"float", imports, rfl⟩
    · exact ⟨"int", imports, rfl⟩
    · exact ⟨"bool", imports, rfl⟩
    · exact ⟨"str", imports, rfl⟩
    · exact ⟨(get_ref_type package imports f.type_name).1,
        (get_ref_type package imports f.type_name).2, rfl⟩
    · exact ⟨"bytes", imports, rfl⟩
    · exfalso
      simp only [List.mem_cons, List.not_mem_nil, or_false] at h h1 h2 h5
      omega

/-- Witness for C8: tag 10 (`group`) fails, tag 8 (`bool`) succeeds. -/
theorem C8_witness :
    py_type "" [] emptyMessage ⟨"g", 1, 10, "", 0⟩ = .error (.unknownType 10) ∧
    ∃ s imps, py_type "" [] emptyMessage ⟨"b", 1, 8, "", 0⟩ = .ok (s, imps) :=
  ⟨(C8_unknown_tag_fatal "" [] emptyMessage ⟨"g", 1, 10, "", 0⟩).1 (by decide),
   (C8_unknown_tag_fatal "" [] emptyMessage ⟨"b", 1, 8, "", 0⟩).2 (by decide)⟩

/-!
## C1 — flattened names produced by `traverse`
-/

/-- C1: at nesting depth 2 the flattened name is *not* the concatenation of
the enclosing message names with the simple name.  Each enclosing generator
frame prepends its (already rewritten) `item.name` again, so
`Outer ⊃ Inner ⊃ Leaf` yields `OuterOuterInnerLeaf` instead of the claimed
`OuterInnerLeaf`; and names are not unique within a unit: a top-level `AB`
next to `A ⊃ B` yields the name `AB` twice. -/
theorem C1_traverse_double_prefixes :
    (traverse c1File).map (fun it => it.1.itemName)
      = ["Outer", "OuterInner", "OuterOuterInnerLeaf"] ∧
    ("OuterOuterInnerLeaf" : String) ≠ "OuterInnerLeaf" ∧
    (traverse c1CollideFile).map (fun it => it.1.itemName) = ["AB", "A", "AB"] ∧
    ¬ ((traverse c1CollideFile).map (fun it => it.1.itemName)).Nodup := by
  refine ⟨by decide, by decide, by decide, by decide⟩

/-!
## C3 — packed flags of repeated fields
-/

/-- C3, counterexample: a repeated enum field (tag 14) compiles with
`repeated = true` but `packed = false`, although the claim requires
`packed = true` for the enum category (tag 14 is missing from the packed
list at `plugin.py:242`). -/
theorem C3_counterexample :
    repeatedPackedOf (compileField "" [] [] emptyMessage ⟨"vals", 1, 14, ".E", 3⟩ "")
      = some (true, false) := by decide

/-- C3, amended: a compiled *repeated* field is packed iff its tag is in the
source's packed list — all numeric and boolean tags; enum (14), string (9),
bytes (12) and message (11) repeated fields are not packed. -/
theorem C3_packed_follows_packedTags (package : String)
    (imports typing_imports : List String) (item : DescriptorProto)
    (f : FieldDescriptorProto) (comment : String) (prop : Property)
    (imps typs : List String)
    (h : compileField package imports typing_imports item f comment = .ok (prop, imps, typs))
    (hrep : prop.repeated = true) :
    (f.type ∈ packedTags → prop.packed = true) ∧
    (f.type ∈ ([9, 11, 12, 14] : List Nat) → prop.packed = false) := by
  obtain ⟨st, hr⟩ := compileField_ok_finish package imports typing_imports item f comment _ h
  have hp : prop = (finishField f comment (get_py_zero f.type) st).1 := by
    rw [← hr]
  rcases finishField_cases f comment (get_py_zero f.type) st with
    ⟨_, _, _, _, h5, _⟩ | ⟨h1, _, _, _⟩
  · constructor
    · intro hm
      rw [hp, h5]
      exact decide_eq_true hm
    · intro hm
      rw [hp, h5]
      refine decide_eq_false ?_
      simp only [packedTags, List.mem_cons, List.not_mem_nil, or_false] at hm ⊢
      omega
  · rw [hp, h1] at hrep
    exact Bool.noConfusion hrep

/-- The property produced for a repeated `int32` field named `tags`. -/
def tagsProp : Property :=
  { name := "tags", number := 1, comment := "", proto_type := 5,
    field_type := "int32", map_types := none, type := "List[int]",
    zero := .pyStr "[]", repeated := true, packed := true }

/-- Witness for C3: the repeated `int32` field `tags` is packed. -/
theorem C3_witness :
    compileField "" [] [] emptyMessage ⟨"tags", 1, 5, "", 3⟩ "" = .ok (tagsProp, [], ["List"]) ∧
    tagsProp.packed = true :=
  ⟨by decide,
   (C3_packed_follows_packedTags "" [] [] emptyMessage ⟨"tags", 1, 5, "", 3⟩ ""
      tagsProp [] ["List"] (by decide) (by decide)).1 (by decide)⟩

/-!
## C6 — map fields are never repeated; repeated defaults are empty lists
-/

/-- C6: in every successfully compiled field, category `"map"` and
`repeated = true` are mutually exclusive, and every repeated field has the
empty-sequence default `"[]"`. -/
theorem C6_map_and_repeated_exclusive (package : String)
    (imports typing_imports : List String) (item : DescriptorProto)
    (f : FieldDescriptorProto) (comment : String) (prop : Property)
    (imps typs : List String)
    (h : compileField package imports typing_imports item f comment = .ok (prop, imps, typs)) :
    (prop.field_type = "map" → prop.repeated = false) ∧
    (prop.repeated = true → prop.zero = .pyStr "[]") := by
  obtain ⟨st, hr⟩ := compileField_ok_finish package imports typing_imports item f comment _ h
  have hp : prop = (finishField f comment (get_py_zero f.type) st).1 := by
    rw [← hr]
  rcases finishField_cases f comment (get_py_zero f.type) st with
    ⟨_, h2, h3, h4, _, _⟩ | ⟨h1, _, _, _⟩
  · constructor
    · intro hm
      rw [hp, h3] at hm
      exact absurd hm h4
    · intro _
      rw [hp]
      exact h2
  · constructor
    · intro _
      rw [hp]
      exact h1
    · intro hrep
      rw [hp, h1] at hrep
      exact Bool.noConfusion hrep

/-- Witness for C6 at the repeated `int32` field `tags`. -/
theorem C6_witness :
    compileField "" [] [] emptyMessage ⟨"tags", 1, 5, "", 3⟩ "" = .ok (tagsProp, [], ["List"]) ∧
    ((tagsProp.field_type = "map" → tagsProp.repeated = false) ∧
     (tagsProp.repeated = true → tagsProp.zero = .pyStr "[]")) :=
  ⟨by decide,
   C6_map_and_repeated_exclusive "" [] [] emptyMessage ⟨"tags", 1, 5, "", 3⟩ ""
     tagsProp [] ["List"] (by decide)⟩

/-!
## C10 — frame effect of `get_ref_type` on the import set
-/

/-- The returned name of the import branch always contains a dot. -/
theorem pyIn_append_dot (a b : String) : pyIn '.' (a ++ "." ++ b) = true := by
  simp [pyIn, String.data_append]

/-- `setAdd` either leaves the set unchanged or appends the new element. -/
theorem setAdd_cases (s : List String) (x : String) :
    setAdd s x = s ∨ (s.contains x = false ∧ setAdd s x = s ++ [x]) := by
  unfold setAdd
  split_ifs with h
  · exact Or.inl rfl
  · exact Or.inr ⟨by simpa using h, rfl⟩

/-- Every `get_ref_type` result is either dot-free with the import set
untouched, or module-qualified (contains a dot) with one `setAdd`. -/
theorem get_ref_type_split (package : String) (imports : List String) (type_name : String) :
    (pyIn '.' (get_ref_type package imports type_name).1 = false ∧
     (get_ref_type package imports type_name).2 = imports) ∨
    (pyIn '.' (get_ref_type package imports type_name).1 = true ∧
     ∃ imp, (get_ref_type package imports type_name).2 = setAdd imports imp) := by
  unfold get_ref_type
  set tn2 := (if pyStartsWith (pyLstrip type_name ".") package then
      "\"" ++ pyRemoveChar (pyLstrip (pyLstrip (pyLstrip type_name ".") package) ".") '.' ++ "\""
    else pyLstrip type_name ".") with htn
  cases h : pyIn '.' tn2
  · rw [if_neg (by simp [h])]
    exact Or.inl ⟨h, rfl⟩
  · rw [if_pos (by simp [h])]
    exact Or.inr ⟨pyIn_append_dot _ _, _, rfl⟩

/-- C10: when `get_ref_type` resolves a reference to a local name (a dot-free
result — the quoted forward reference of the current-package branch, or the
package-less top-level form), the import set is returned unchanged; the set
changes only when the reference is resolved as a cross-package
module-qualified name (a result containing a dot), and then by adding one
new import entry. -/
theorem C10_local_refs_leave_imports_unchanged (package : String)
    (imports : List String) (type_name : String) :
    (pyIn '.' (get_ref_type package imports type_name).1 = false →
      (get_ref_type package imports type_name).2 = imports) ∧
    ((get_ref_type package imports type_name).2 ≠ imports →
      pyIn '.' (get_ref_type package imports type_name).1 = true ∧
      ∃ imp, imports.contains imp = false ∧
        (get_ref_type package imports type_name).2 = imports ++ [imp]) := by
  rcases get_ref_type_split package imports type_name with ⟨h1, h2⟩ | ⟨h1, imp, h2⟩
  · exact ⟨fun _ => h2, fun hne => absurd h2 hne⟩
  · constructor
    · intro hf
      rw [h1] at hf
      exact Bool.noConfusion hf
    · intro hne
      refine ⟨h1, ?_⟩
      rcases setAdd_cases imports imp with hc | ⟨hc, he⟩
      · rw [h2, hc] at hne
        exact absurd rfl hne
      · exact ⟨imp, hc, by rw [h2, he]⟩

/-- Witness for C10: a current-package reference resolves locally and leaves
a non-empty import set untouched. -/
theorem C10_witness :
    pyIn '.' (get_ref_type "pkg" ["from .x import y"] ".pkg.Msg").1 = false ∧
    (get_ref_type "pkg" ["from .x import y"] ".pkg.Msg").2 = ["from .x import y"] :=
  ⟨by decide,
   (C10_local_refs_leave_imports_unchanged "pkg" ["from .x import y"] ".pkg.Msg").1 (by decide)⟩

/-!
## C9 — comment extraction
-/

/-- C9: a path with no attached non-empty leading comment yields the empty
string (trailing comments never matter), and a declaration-level path whose
leading comment wraps to a single line shorter than 70 characters yields the
one-line quoted block with enclosing quote characters stripped. -/
theorem C9_comment_extraction (pf : FileDescriptorProto) (path : List Nat) :
    ((∀ sci ∈ pf.source_code_info, sci.path = path → sci.leading_comments = "") →
      get_comment pf path = "") ∧
    (∀ sci l,
      pf.source_code_info.find?
        (fun s => (s.path == path) && (s.leading_comments != "")) = some sci →
      ¬(pyIdxFromEnd path 2 = 2 ∧ pyIdxFromEnd path 4 ≠ 6) →
      pyWrap 75 (pyRemoveChar (pyStripWs sci.leading_comments) '\n') = [l] →
      pyLen l < 70 →
      get_comment pf path = "    \"\"\"" ++ pyStrip l "\"" ++ "\"\"\"") := by
  constructor
  · intro h
    have hnone : pf.source_code_info.find?
        (fun s => (s.path == path) && (s.leading_comments != "")) = none := by
      rw [List.find?_eq_none]
      intro x hx
      by_cases hp : x.path = path
      · have hl := h x hx hp
        simp [hp, hl]
      · simp [hp]
    unfold get_comment
    rw [hnone]
  · intro sci l hfind hbr hwrap hlen
    unfold get_comment
    simp only [hfind]
    rw [hwrap, if_neg hbr, if_pos ⟨rfl, hlen⟩]
    rfl

/-- A file whose only location for `[4, 0]` has a one-line leading comment
and a trailing comment. -/
def c9FileComment : FileDescriptorProto :=
  { name := "", package := "", message_type := .nil, enum_type := [],
    service := [],
    source_code_info :=
      [{ path := [4, 0], leading_comments := "Hello there", trailing_comments := "tail" }] }

/-- A file whose only location for `[4, 0]` has no leading comment, only a
trailing one. -/
def c9FileNone : FileDescriptorProto :=
  { name := "", package := "", message_type := .nil, enum_type := [],
    service := [],
    source_code_info :=
      [{ path := [4, 0], leading_comments := "", trailing_comments := "tail" }] }

/-- Witness for C9: no leading comment yields `""`; a short one-line leading
comment on a message yields the one-line docstring. -/
theorem C9_witness :
    get_comment c9FileNone [4, 0] = "" ∧
    get_comment c9FileComment [4, 0] = "    \"\"\"Hello there\"\"\"" :=
  ⟨(C9_comment_extraction c9FileNone [4, 0]).1 (by decide),
   (C9_comment_extraction c9FileComment [4, 0]).2
     { path := [4, 0], leading_comments := "Hello there", trailing_comments := "tail" }
     "Hello there" (by decide) (by decide) (by decide) (by decide)⟩

/-!
## C5 — map-entry detection
-/

/-- `py_type` on a message-reference field (tag 11) is `get_ref_type` on its
`type_name`. -/
theorem py_type_eleven (package : String) (imports : List String)
    (message : DescriptorProto) (f : FieldDescriptorProto) (h : f.type = 11) :
    py_type package imports message f = .ok (get_ref_type package imports f.type_name) := by
  unfold py_type
  rw [h]
  rfl

/-- A successful `py_type` followed by a successful `detectMap` determines the
`compileField` result. -/
theorem compileField_unfold_ok (package : String) (imports typing_imports : List String)
    (item : DescriptorProto) (f : FieldDescriptorProto) (comment : String)
    (t0 : String) (imports1 : List String)
    (hpt : py_type package imports item f = .ok (t0, imports1)) :
    compileField package imports typing_imports item f comment =
      match detectMap package item f
          { t := t0, field_type := pyDrop (pyLower (typeNameFull f.type)) 5,
            map_types := none, imports := imports1, typing_imports := typing_imports } with
      | .error e => .error e
      | .ok st => .ok (finishField f comment (get_py_zero f.type) st) := by
  unfold compileField
  rw [hpt]

/-- `mapScan` skips every nested message whose normalised name differs from
the map-entry name. -/
theorem mapScan_append_skip (package : String) (item : DescriptorProto)
    (me : String) (st : MapSt) (l1 : List DescriptorProto)
    (h : ∀ m ∈ l1, normName m.name ≠ me) (l2 : List DescriptorProto) :
    mapScan package item me st (l1 ++ l2) = mapScan package item me st l2 := by
  induction l1 with
  | nil => rfl
  | cons m rest ih =>
    have hm : normName m.name ≠ me := h m (List.mem_cons_self m rest)
    have hrest : ∀ x ∈ rest, normName x.name ≠ me :=
      fun x hx => h x (List.mem_cons_of_mem m hx)
    simp only [List.cons_append, mapScan, if_neg hm]
    exact ih hrest

/-- `mapScan` over a list with no name match returns the state unchanged. -/
theorem mapScan_no_match (package : String) (item : DescriptorProto)
    (me : String) (st : MapSt) (l : List DescriptorProto)
    (h : ∀ m ∈ l, normName m.name ≠ me) :
    mapScan package item me st l = .ok st := by
  induction l with
  | nil => rfl
  | cons m rest ih =>
    have hm : normName m.name ≠ me := h m (List.mem_cons_self m rest)
    have hrest : ∀ x ∈ rest, normName x.name ≠ me :=
      fun x hx => h x (List.mem_cons_of_mem m hx)
    simp only [mapScan, if_neg hm]
    exact ih hrest

/-- `mapScan` over a list in which every name match is unflagged returns the
state unchanged (the conservative fallback of the detector). -/
theorem mapScan_unflagged (package : String) (item : DescriptorProto)
    (me : String) (st : MapSt) (l : List DescriptorProto)
    (h : ∀ m ∈ l, normName m.name = me → m.map_entry = false) :
    mapScan package item me st l = .ok st := by
  induction l with
  | nil => rfl
  | cons m rest ih =>
    have hrest : ∀ x ∈ rest, normName x.name = me → x.map_entry = false :=
      fun x hx => h x (List.mem_cons_of_mem m hx)
    by_cases hm : normName m.name = me
    · have hflag : m.map_entry = false := h m (List.mem_cons_self m rest) hm
      simp only [mapScan, if_pos hm, hflag]
      exact ih hrest
    · simp only [mapScan, if_neg hm]
      exact ih hrest

/-- One step of `mapScan` at a flagged, name-matching nested message with
both fields present and valid types: the state is rewritten to the mapping
type. -/
theorem mapScan_hit (package : String) (item : DescriptorProto) (me : String)
    (st : MapSt) (n : DescriptorProto) (post : List DescriptorProto)
    (f0 f1 : FieldDescriptorProto) (ks vs : String) (impsK impsV : List String)
    (hn : normName n.name = me)
    (hflag : n.map_entry = true)
    (hf0 : n.field.get? 0 = some f0)
    (hf1 : n.field.get? 1 = some f1)
    (hk : py_type package st.imports item f0 = .ok (ks, impsK))
    (hv : py_type package impsK item f1 = .ok (vs, impsV)) :
    mapScan package item me st (n :: post) =
      mapScan package item me
        { t := "Dict[" ++ ks ++ ", " ++ vs ++ "]", field_type := "map",
          map_types := some (typeNameFull f0.type, typeNameFull f1.type),
          imports := impsV, typing_imports := setAdd st.typing_imports "Dict" }
        post := by
  simp only [mapScan, if_pos hn, hflag, hf0, hf1, hk, hv]
  rw [if_pos trivial]

/-- C5, amended: (i) a message-reference field whose referenced simple name,
*lowercased* (underscores are not stripped on this side — this is the only
amendment), equals the underscore-stripped lowercased field name plus
`"entry"`, and whose declaring message has exactly one normalised-name match
among its nested types, that match being flagged `map_entry` with a key
field 0 and value field 1 of valid types, compiles to category `"map"` with
the key-to-value `Dict` type and `repeated = false`; (ii) if every
normalised-name match is unflagged, the field stays an ordinary
message-typed field; (iii) every message flagged as a synthetic map entry is
skipped by the traversal consumer, so it never reaches the unit's message
list. -/
theorem C5_map_entry_detection (package : String) (imports typs : List String)
    (item : DescriptorProto) (f : FieldDescriptorProto) (comment : String) :
    (∀ (pre post : List DescriptorProto) (n : DescriptorProto)
       (f0 f1 : FieldDescriptorProto) (ks vs : String) (impsK impsV : List String),
      f.type = 11 →
      refLast f.type_name = normName f.name ++ "entry" →
      item.nested_type.toList = pre ++ n :: post →
      (∀ m ∈ pre, normName m.name ≠ normName f.name ++ "entry") →
      (∀ m ∈ post, normName m.name ≠ normName f.name ++ "entry") →
      normName n.name = normName f.name ++ "entry" →
      n.map_entry = true →
      n.field.get? 0 = some f0 →
      n.field.get? 1 = some f1 →
      py_type package (get_ref_type package imports f.type_name).2 item f0 = .ok (ks, impsK) →
      py_type package impsK item f1 = .ok (vs, impsV) →
      compileField package imports typs item f comment =
        .ok ({ name := f.name, number := f.number, comment := comment,
               proto_type := f.type, field_type := "map",
               map_types := some (typeNameFull f0.type, typeNameFull f1.type),
               type := "Dict[" ++ ks ++ ", " ++ vs ++ "]",
               zero := get_py_zero f.type, repeated := false, packed := false },
             impsV, setAdd typs "Dict")) ∧
    (f.type = 11 →
      (∀ m ∈ item.nested_type.toList,
        normName m.name = normName f.name ++ "entry" → m.map_entry = false) →
      ∃ prop imps2 typs2,
        compileField package imports typs item f comment = .ok (prop, imps2, typs2) ∧
        prop.field_type = "message" ∧ prop.map_types = none) ∧
    (∀ (pf : FileDescriptorProto) (st : UnitSt) (d : DescriptorProto) (path : List Nat),
      d.map_entry = true → processItem package pf st (.msg d, path) = .ok st) := by
  refine ⟨?_, ?_, ?_⟩
  · intro pre post n f0 f1 ks vs impsK impsV h11 hname hsplit hpre hpost hn hflag hf0 hf1 hk hv
    have hu := compileField_unfold_ok package imports typs item f comment
        (get_ref_type package imports f.type_name).1
        (get_ref_type package imports f.type_name).2
        (by rw [py_type_eleven package imports item f h11])
    rw [hu]
    have hdm : detectMap package item f
        { t := (get_ref_type package imports f.type_name).1,
          field_type := pyDrop (pyLower (typeNameFull f.type)) 5,
          map_types := none, imports := (get_ref_type package imports f.type_name).2,
          typing_imports := typs } =
        .ok { t := "Dict[" ++ ks ++ ", " ++ vs ++ "]", field_type := "map",
              map_types := some (typeNameFull f0.type, typeNameFull f1.type),
              imports := impsV, typing_imports := setAdd typs "Dict" } := by
      unfold detectMap
      rw [if_pos h11, if_pos hname, hsplit,
          mapScan_append_skip package item _ _ pre hpre (n :: post),
          mapScan_hit package item _ _ n post f0 f1 ks vs impsK impsV hn hflag hf0 hf1 hk hv,
          mapScan_no_match package item _ _ post hpost]
    simp only [hdm]
    unfold finishField
    rw [if_neg (fun hcon => hcon.2 rfl)]
  · intro h11 hunflag
    have hu := compileField_unfold_ok package imports typs item f comment
        (get_ref_type package imports f.type_name).1
        (get_ref_type package imports f.type_name).2
        (by rw [py_type_eleven package imports item f h11])
    have hft : pyDrop (pyLower (typeNameFull f.type)) 5 = "message" := by
      rw [h11]
      rfl
    have hdm : detectMap package item f
        { t := (get_ref_type package imports f.type_name).1,
          field_type := pyDrop (pyLower (typeNameFull f.type)) 5,
          map_types := none, imports := (get_ref_type package imports f.type_name).2,
          typing_imports := typs } =
        .ok { t := (get_ref_type package imports f.type_name).1,
              field_type := pyDrop (pyLower (typeNameFull f.type)) 5,
              map_types := none, imports := (get_ref_type package imports f.type_name).2,
              typing_imports := typs } := by
      unfold detectMap
      rw [if_pos h11]
      by_cases hm : refLast f.type_name = normName f.name ++ "entry"
      · rw [if_pos hm]
        exact mapScan_unflagged package item _ _ item.nested_type.toList hunflag
      · rw [if_neg hm]
    refine ⟨(finishField f comment (get_py_zero f.type)
               { t := (get_ref_type package imports f.type_name).1,
                 field_type := pyDrop (pyLower (typeNameFull f.type)) 5,
                 map_types := none, imports := (get_ref_type package imports f.type_name).2,
                 typing_imports := typs }).1,
            (finishField f comment (get_py_zero f.type)
               { t := (get_ref_type package imports f.type_name).1,
                 field_type := pyDrop (pyLower (typeNameFull f.type)) 5,
                 map_types := none, imports := (get_ref_type package imports f.type_name).2,
                 typing_imports := typs }).2.1,
            (finishField f comment (get_py_zero f.type)
               { t := (get_ref_type package imports f.type_name).1,
                 field_type := pyDrop (pyLower (typeNameFull f.type)) 5,
                 map_types := none, imports := (get_ref_type package imports f.type_name).2,
                 typing_imports := typs }).2.2, ?_, ?_, ?_⟩
    · rw [hu]
      simp only [hdm]
    · rcases finishField_cases f comment (get_py_zero f.type)
          { t := (get_ref_type package imports f.type_name).1,
            field_type := pyDrop (pyLower (typeNameFull f.type)) 5,
            map_types := none, imports := (get_ref_type package imports f.type_name).2,
            typing_imports := typs } with ⟨_, _, h3, _, _, _⟩ | ⟨_, _, h3, _⟩ <;>
        rw [h3] <;> exact hft
    · rcases finishField_cases f comment (get_py_zero f.type)
          { t := (get_ref_type package imports f.type_name).1,
            field_type := pyDrop (pyLower (typeNameFull f.type)) 5,
            map_types := none, imports := (get_ref_type package imports f.type_name).2,
            typing_imports := typs } with ⟨_, _, _, _, _, h6⟩ | ⟨_, _, _, h6⟩ <;>
        rw [h6]
  · intro pf st d path hflag
    simp only [processItem, hflag]
    rw [if_pos trivial]

/-- A synthetic map-entry message whose name contains an underscore. -/
def c5UEntry : DescriptorProto :=
  .mk "Attrs_Entry" [⟨"key", 1, 9, "", 1⟩, ⟨"value", 2, 9, "", 1⟩] .nil [] true

/-- A message with the field `attrs` referencing `Attrs_Entry`. -/
def c5UItem : DescriptorProto :=
  .mk "M" [⟨"attrs", 1, 11, ".p.M.Attrs_Entry", 3⟩] (.cons c5UEntry .nil) [] false

/-- C5, counterexample to the claim as stated: with the spec's normalisation
(strip separators, lowercase) the referenced message name `Attrs_Entry`
*does* match `attrs` + `entry`, and the declaring message does contain the
same-named nested message flagged as a map entry — yet the compiled field
keeps category `"message"`, because the source lowercases the referenced
name without stripping underscores (`plugin.py:203` vs `plugin.py:210`). -/
theorem C5_counterexample :
    normName "Attrs_Entry" = normName "attrs" ++ "entry" ∧
    c5UEntry.map_entry = true ∧
    fieldTypeOf (compileField "p" [] [] c5UItem ⟨"attrs", 1, 11, ".p.M.Attrs_Entry", 3⟩ "")
      = some "message" := by
  refine ⟨by decide, by decide, by decide⟩

/-- A synthetic map-entry message with the protoc-style CamelCase name. -/
def c5Entry : DescriptorProto :=
  .mk "AttrsEntry" [⟨"key", 1, 9, "", 1⟩, ⟨"value", 2, 9, "", 1⟩] .nil [] true

/-- A message with the field `attrs` referencing `AttrsEntry`. -/
def c5Item : DescriptorProto :=
  .mk "M" [⟨"attrs", 1, 11, ".p.M.AttrsEntry", 3⟩] (.cons c5Entry .nil) [] false

/-- The map field of `c5Item`. -/
def c5Field : FieldDescriptorProto := ⟨"attrs", 1, 11, ".p.M.AttrsEntry", 3⟩

/-- Witness for C5: the `attrs` / `AttrsEntry` pair compiles to a
`Dict[str, str]` map field. -/
theorem C5_witness :
    compileField "p" [] [] c5Item c5Field "" =
      .ok ({ name := "attrs", number := 1, comment := "", proto_type := 11,
             field_type := "map", map_types := some ("TYPE_STRING", "TYPE_STRING"),
             type := "Dict[str, str]", zero := .pyStr "None",
             repeated := false, packed := false }, [], ["Dict"]) :=
  (C5_map_entry_detection "p" [] [] c5Item c5Field "").1
    [] [] c5Entry ⟨"key", 1, 9, "", 1⟩ ⟨"value", 2, 9, "", 1⟩ "str" "str" [] []
    (by decide) (by decide) rfl (by simp) (by simp)
    (by decide) (by decide) (by decide) (by decide) (by decide) (by decide)

/-!
## C7 — client-streaming methods abort compilation

The first group of lemmas shows the message/enum phase can only raise
unknown-type or index errors, never the client-streaming error; the second
group relates service processing to the client-streaming flags; the third
tracks files through the unit grouping.
-/

theorem py_type_ne_cs (package : String) (imports : List String)
    (message : DescriptorProto) (f : FieldDescriptorProto) :
    py_type package imports message f ≠ .error .clientStreaming := by
  unfold py_type
  split_ifs <;> simp

theorem mapScan_ne_cs (package : String) (item : DescriptorProto) (me : String) :
    ∀ (l : List DescriptorProto) (st : MapSt),
      mapScan package item me st l ≠ .error .clientStreaming := by
  intro l
  induction l with
  | nil => intro st; simp [mapScan]
  | cons nested rest ih =>
    intro st
    simp only [mapScan]
    split_ifs with h1 h2
    · intro hc
      split at hc
      · simp at hc
      · split at hc
        · rename_i heq
          injection hc with he
          rw [he] at heq
          exact py_type_ne_cs _ _ _ _ heq
        · split at hc
          · simp at hc
          · split at hc
            · rename_i heq
              injection hc with he
              rw [he] at heq
              exact py_type_ne_cs _ _ _ _ heq
            · exact ih _ hc
    · exact ih st
    · exact ih st

theorem detectMap_ne_cs (package : String) (item : DescriptorProto)
    (f : FieldDescriptorProto) (st : MapSt) :
    detectMap package item f st ≠ .error .clientStreaming := by
  simp only [detectMap]
  split_ifs with h1 h2
  · exact mapScan_ne_cs package item _ _ st
  · simp
  · simp

theorem compileField_ne_cs (package : String) (imports typing_imports : List String)
    (item : DescriptorProto) (f : FieldDescriptorProto) (comment : String) :
    compileField package imports typing_imports item f comment ≠ .error .clientStreaming := by
  intro hc
  unfold compileField at hc
  split at hc
  · rename_i heq
    injection hc with he
    rw [he] at heq
    exact py_type_ne_cs _ _ _ _ heq
  · split at hc
    · rename_i heq
      injection hc with he
      rw [he] at heq
      exact detectMap_ne_cs _ _ _ _ heq
    · exact Except.noConfusion hc

theorem compileFields_ne_cs (package : String) (pf : FileDescriptorProto)
    (path : List Nat) (item : DescriptorProto) :
    ∀ (fs : List FieldDescriptorProto) (imports typing_imports : List String) (i : Nat),
      compileFields package pf path item imports typing_imports i fs ≠
        .error .clientStreaming := by
  intro fs
  induction fs with
  | nil => intro imports typing_imports i; simp [compileFields]
  | cons f rest ih =>
    intro imports typing_imports i hc
    unfold compileFields at hc
    split at hc
    · rename_i heq
      injection hc with he
      rw [he] at heq
      exact compileField_ne_cs _ _ _ _ _ _ heq
    · split at hc
      · rename_i heq
        injection hc with he
        rw [he] at heq
        exact ih _ _ _ heq
      · exact Except.noConfusion hc

theorem processItem_ne_cs (package : String) (pf : FileDescriptorProto) (st : UnitSt)
    (it : TravItem × List Nat) :
    processItem package pf st it ≠ .error .clientStreaming := by
  obtain ⟨item, path⟩ := it
  cases item with
  | msg d =>
    intro hc
    simp only [processItem] at hc
    split at hc
    · exact Except.noConfusion hc
    · split at hc
      · rename_i heq
        injection hc with he
        rw [he] at heq
        exact compileFields_ne_cs _ _ _ _ _ _ _ _ heq
      · exact Except.noConfusion hc
  | enum e => simp [processItem]

theorem processItems_ne_cs (package : String) (pf : FileDescriptorProto) :
    ∀ (its : List (TravItem × List Nat)) (st : UnitSt),
      processItems package pf st its ≠ .error .clientStreaming := by
  intro its
  induction its with
  | nil => intro st; simp [processItems]
  | cons it rest ih =>
    intro st hc
    unfold processItems at hc
    split at hc
    · rename_i heq
      injection hc with he
      rw [he] at heq
      exact processItem_ne_cs _ _ _ _ heq
    · exact ih _ hc

theorem processMethods_ok_all (package : String) (pf : FileDescriptorProto)
    (i : Nat) (sname : String) :
    ∀ (ms : List MethodDescriptorProto) (st : UnitSt) (j : Nat)
      (r : List CMethod × UnitSt),
      processMethods package pf i sname st j ms = .ok r →
      ∀ m ∈ ms, m.client_streaming = false := by
  intro ms
  induction ms with
  | nil => intro st j r _ m hm; exact absurd hm (List.not_mem_nil m)
  | cons mt rest ih =>
    intro st j r h m hm
    unfold processMethods at h
    split_ifs at h with hcs
    rcases List.mem_cons.mp hm with rfl | hm'
    · simpa using hcs
    · split at h
      · exact Except.noConfusion h
      · rename_i heq
        exact ih _ _ _ heq m hm'

theorem processMethods_err_cs (package : String) (pf : FileDescriptorProto)
    (i : Nat) (sname : String) :
    ∀ (ms : List MethodDescriptorProto) (st : UnitSt) (j : Nat),
      processMethods package pf i sname st j ms = .error .clientStreaming →
      ∃ m ∈ ms, m.client_streaming = true := by
  intro ms
  induction ms with
  | nil => intro st j h; exact absurd h (by simp [processMethods])
  | cons mt rest ih =>
    intro st j h
    unfold processMethods at h
    split_ifs at h with hcs
    · exact ⟨mt, List.mem_cons_self mt rest, hcs⟩
    · split at h
      · rename_i heq
        injection h with he
        rw [he] at heq
        rcases ih _ _ heq with ⟨m, hm, hs⟩
        exact ⟨m, List.mem_cons_of_mem mt hm, hs⟩
      · exact Except.noConfusion h

theorem processServices_ok_all (package : String) (pf : FileDescriptorProto) :
    ∀ (svcs : List ServiceDescriptorProto) (st : UnitSt) (i : Nat) (st' : UnitSt),
      processServices package pf st i svcs = .ok st' →
      ∀ svc ∈ svcs, ∀ m ∈ svc.method, m.client_streaming = false := by
  intro svcs
  induction svcs with
  | nil => intro st i st' _ svc hsvc; exact absurd hsvc (List.not_mem_nil svc)
  | cons s rest ih =>
    intro st i st' h svc hsvc m hm
    unfold processServices at h
    split at h
    · exact Except.noConfusion h
    · rename_i heq
      rcases List.mem_cons.mp hsvc with rfl | hsvc'
      · exact processMethods_ok_all package pf i svc.name svc.method st 0 _ heq m hm
      · exact ih _ _ _ h svc hsvc' m hm

theorem processServices_err_cs (package : String) (pf : FileDescriptorProto) :
    ∀ (svcs : List ServiceDescriptorProto) (st : UnitSt) (i : Nat),
      processServices package pf st i svcs = .error .clientStreaming →
      ∃ svc ∈ svcs, ∃ m ∈ svc.method, m.client_streaming = true := by
  intro svcs
  induction svcs with
  | nil => intro st i h; exact absurd h (by simp [processServices])
  | cons s rest ih =>
    intro st i h
    unfold processServices at h
    split at h
    · rename_i heq
      injection h with he
      rw [he] at heq
      rcases processMethods_err_cs package pf i s.name s.method st 0 heq with ⟨m, hm, hs⟩
      exact ⟨s, List.mem_cons_self s rest, m, hm, hs⟩
    · rcases ih _ _ h with ⟨svc, hsvc, m, hm, hs⟩
      exact ⟨svc, List.mem_cons_of_mem s hsvc, m, hm, hs⟩

theorem processFile_ok_all (package : String) (st : UnitSt)
    (pf : FileDescriptorProto) (st' : UnitSt)
    (h : processFile package st pf = .ok st') :
    ∀ svc ∈ pf.service, ∀ m ∈ svc.method, m.client_streaming = false := by
  unfold processFile at h
  split at h
  · exact Except.noConfusion h
  · exact processServices_ok_all package pf pf.service _ 0 st' h

theorem processFile_err_cs (package : String) (st : UnitSt)
    (pf : FileDescriptorProto)
    (h : processFile package st pf = .error .clientStreaming) :
    ∃ svc ∈ pf.service, ∃ m ∈ svc.method, m.client_streaming = true := by
  unfold processFile at h
  split at h
  · rename_i heq
    injection h with he
    rw [he] at heq
    exact absurd heq (processItems_ne_cs package pf (traverse pf) st)
  · exact processServices_err_cs package pf pf.service _ 0 h

theorem processFiles_ok_all (package : String) :
    ∀ (fs : List FileDescriptorProto) (st st' : UnitSt),
      processFiles package st fs = .ok st' →
      ∀ pf ∈ fs, ∀ svc ∈ pf.service, ∀ m ∈ svc.method, m.client_streaming = false := by
  intro fs
  induction fs with
  | nil => intro st st' _ pf hpf; exact absurd hpf (List.not_mem_nil pf)
  | cons f rest ih =>
    intro st st' h pf hpf
    unfold processFiles at h
    split at h
    · exact Except.noConfusion h
    · rename_i heq
      rcases List.mem_cons.mp hpf with rfl | hpf'
      · exact processFile_ok_all package st pf _ heq
      · exact ih _ _ h pf hpf'

theorem processFiles_err_cs (package : String) :
    ∀ (fs : List FileDescriptorProto) (st : UnitSt),
      processFiles package st fs = .error .clientStreaming →
      ∃ pf ∈ fs, ∃ svc ∈ pf.service, ∃ m ∈ svc.method, m.client_streaming = true := by
  intro fs
  induction fs with
  | nil => intro st h; exact absurd h (by simp [processFiles])
  | cons f rest ih =>
    intro st h
    unfold processFiles at h
    split at h
    · rename_i heq
      injection h with he
      rw [he] at heq
      rcases processFile_err_cs package st f heq with ⟨svc, hsvc, m, hm, hs⟩
      exact ⟨f, List.mem_cons_self f rest, svc, hsvc, m, hm, hs⟩
    · rcases ih _ h with ⟨pf, hpf, svc, hsvc, m, hm, hs⟩
      exact ⟨pf, List.mem_cons_of_mem f hpf, svc, hsvc, m, hm, hs⟩

theorem compileUnit_ok_all (package : String) (files : List FileDescriptorProto)
    (u : UnitOut) (h : compileUnit package files = .ok u) :
    ∀ pf ∈ files, ∀ svc ∈ pf.service, ∀ m ∈ svc.method, m.client_streaming = false := by
  unfold compileUnit at h
  split at h
  · exact Except.noConfusion h
  · rename_i heq
    exact processFiles_ok_all package files _ _ heq

theorem compileUnit_err_cs (package : String) (files : List FileDescriptorProto)
    (h : compileUnit package files = .error .clientStreaming) :
    ∃ pf ∈ files, ∃ svc ∈ pf.service, ∃ m ∈ svc.method, m.client_streaming = true := by
  unfold compileUnit at h
  split at h
  · rename_i heq
    injection h with he
    rw [he] at heq
    exact processFiles_err_cs package files _ heq
  · exact Except.noConfusion h

theorem compileUnits_ok_all :
    ∀ (entries : List (String × String × List FileDescriptorProto))
      (us : List (String × UnitOut)),
      compileUnits entries = .ok us →
      ∀ e ∈ entries, ∀ pf ∈ e.2.2, ∀ svc ∈ pf.service, ∀ m ∈ svc.method,
        m.client_streaming = false := by
  intro entries
  induction entries with
  | nil => intro us _ e he; exact absurd he (List.not_mem_nil e)
  | cons a rest ih =>
    obtain ⟨key, package, files⟩ := a
    intro us h e he
    unfold compileUnits at h
    split at h
    · exact Except.noConfusion h
    · rename_i u heq
      split at h
      · exact Except.noConfusion h
      · rename_i us' heq2
        rcases List.mem_cons.mp he with rfl | he'
        · exact compileUnit_ok_all package files u heq
        · exact ih us' heq2 e he'

theorem compileUnits_err_cs :
    ∀ (entries : List (String × String × List FileDescriptorProto)),
      compileUnits entries = .error .clientStreaming →
      ∃ e ∈ entries, ∃ pf ∈ e.2.2, ∃ svc ∈ pf.service, ∃ m ∈ svc.method,
        m.client_streaming = true := by
  intro entries
  induction entries with
  | nil => intro h; exact absurd h (by simp [compileUnits])
  | cons a rest ih =>
    obtain ⟨key, package, files⟩ := a
    intro h
    unfold compileUnits at h
    split at h
    · rename_i heq
      injection h with he
      rw [he] at heq
      rcases compileUnit_err_cs package files heq with ⟨pf, hpf, svc, hsvc, m, hm, hs⟩
      exact ⟨(key, package, files), List.mem_cons_self _ rest, pf, hpf, svc, hsvc, m, hm, hs⟩
    · split at h
      · rename_i heq2
        injection h with he
        rw [he] at heq2
        rcases ih heq2 with ⟨e, he, pf, hpf, svc, hsvc, m, hm, hs⟩
        exact ⟨e, List.mem_cons_of_mem _ he, pf, hpf, svc, hsvc, m, hm, hs⟩
      · exact Except.noConfusion h

theorem addToOutputMap_preserves (x : FileDescriptorProto) :
    ∀ (acc : List (String × String × List FileDescriptorProto))
      (key : String) (pf : FileDescriptorProto),
      (∃ e ∈ acc, x ∈ e.2.2) → ∃ e ∈ addToOutputMap acc key pf, x ∈ e.2.2 := by
  intro acc
  induction acc with
  | nil =>
    intro key pf h
    rcases h with ⟨e, he, _⟩
    exact absurd he (List.not_mem_nil e)
  | cons a rest ih =>
    obtain ⟨k, p, fs⟩ := a
    intro key pf h
    rcases h with ⟨e, he, hx⟩
    unfold addToOutputMap
    split_ifs with hk
    · rcases List.mem_cons.mp he with rfl | hrest
      · exact ⟨(k, p, fs ++ [pf]), List.mem_cons_self _ _, List.mem_append.mpr (Or.inl hx)⟩
      · exact ⟨e, List.mem_cons_of_mem _ hrest, hx⟩
    · rcases List.mem_cons.mp he with rfl | hrest
      · exact ⟨(k, p, fs), List.mem_cons_self _ _, hx⟩
      · rcases ih key pf ⟨e, hrest, hx⟩ with ⟨e2, he2, hx2⟩
        exact ⟨e2, List.mem_cons_of_mem _ he2, hx2⟩

theorem addToOutputMap_adds :
    ∀ (acc : List (String × String × List FileDescriptorProto))
      (key : String) (pf : FileDescriptorProto),
      ∃ e ∈ addToOutputMap acc key pf, pf ∈ e.2.2 := by
  intro acc
  induction acc with
  | nil =>
    intro key pf
    exact ⟨(key, pf.package, [pf]), List.mem_singleton.mpr rfl, List.mem_singleton.mpr rfl⟩
  | cons a rest ih =>
    obtain ⟨k, p, fs⟩ := a
    intro key pf
    unfold addToOutputMap
    split_ifs with hk
    · exact ⟨(k, p, fs ++ [pf]), List.mem_cons_self _ _,
        List.mem_append.mpr (Or.inr (List.mem_singleton.mpr rfl))⟩
    · rcases ih key pf with ⟨e, he, hx⟩
      exact ⟨e, List.mem_cons_of_mem _ he, hx⟩

theorem addToOutputMap_sound (P : FileDescriptorProto → Prop) :
    ∀ (acc : List (String × String × List FileDescriptorProto))
      (key : String) (pf : FileDescriptorProto),
      (∀ e ∈ acc, ∀ x ∈ e.2.2, P x) → P pf →
      ∀ e ∈ addToOutputMap acc key pf, ∀ x ∈ e.2.2, P x := by
  intro acc
  induction acc with
  | nil =>
    intro key pf _ hpf e he x hx
    rcases List.mem_singleton.mp he with rfl
    rcases List.mem_singleton.mp hx with rfl
    exact hpf
  | cons a rest ih =>
    obtain ⟨k, p, fs⟩ := a
    intro key pf hacc hpf e he x hx
    unfold addToOutputMap at he
    split_ifs at he with hk
    · rcases List.mem_cons.mp he with rfl | hrest
      · rcases List.mem_append.mp hx with hx' | hx'
        · exact hacc (k, p, fs) (List.mem_cons_self _ _) x hx'
        · rcases List.mem_singleton.mp hx' with rfl
          exact hpf
      · exact hacc e (List.mem_cons_of_mem _ hrest) x hx
    · rcases List.mem_cons.mp he with rfl | hrest
      · exact hacc (k, p, fs) (List.mem_cons_self _ _) x hx
      · exact ih key pf (fun e2 he2 => hacc e2 (List.mem_cons_of_mem _ he2)) hpf e hrest x hx

theorem buildOutputMap_covers (files : List FileDescriptorProto)
    (pf : FileDescriptorProto) (h : pf ∈ files) :
    ∃ e ∈ buildOutputMap files, pf ∈ e.2.2 := by
  suffices hgen : ∀ (fs : List FileDescriptorProto)
      (acc : List (String × String × List FileDescriptorProto)),
      (pf ∈ fs ∨ ∃ e ∈ acc, pf ∈ e.2.2) →
      ∃ e ∈ fs.foldl
        (fun acc pf0 =>
          let out := if pf0.package ≠ "" then pf0.package else pathToOut pf0.name
          addToOutputMap acc out pf0)
        acc, pf ∈ e.2.2 by
    exact hgen files [] (Or.inl h)
  intro fs
  induction fs with
  | nil =>
    intro acc h2
    rcases h2 with h2 | h2
    · exact absurd h2 (List.not_mem_nil pf)
    · simpa using h2
  | cons a rest ih =>
    intro acc h2
    simp only [List.foldl_cons]
    apply ih
    rcases h2 with h2 | h2
    · rcases List.mem_cons.mp h2 with rfl | hr
      · exact Or.inr (addToOutputMap_adds acc _ pf)
      · exact Or.inl hr
    · exact Or.inr (addToOutputMap_preserves pf acc _ a h2)

theorem buildOutputMap_sound (files : List FileDescriptorProto) :
    ∀ e ∈ buildOutputMap files, ∀ x ∈ e.2.2, x ∈ files := by
  suffices hgen : ∀ (fs : List FileDescriptorProto)
      (acc : List (String × String × List FileDescriptorProto))
      (P : FileDescriptorProto → Prop),
      (∀ e ∈ acc, ∀ x ∈ e.2.2, P x) → (∀ x ∈ fs, P x) →
      ∀ e ∈ fs.foldl
        (fun acc pf0 =>
          let out := if pf0.package ≠ "" then pf0.package else pathToOut pf0.name
          addToOutputMap acc out pf0)
        acc, ∀ x ∈ e.2.2, P x by
    exact hgen files [] (fun x => x ∈ files)
      (fun e he => absurd he (List.not_mem_nil e)) (fun x hx => hx)
  intro fs
  induction fs with
  | nil =>
    intro acc P hacc _ e he
    simpa using hacc e (by simpa using he)
  | cons a rest ih =>
    intro acc P hacc hfs e he
    simp only [List.foldl_cons] at he
    exact ih _ P
      (addToOutputMap_sound P acc _ a hacc (hfs a (List.mem_cons_self a rest)))
      (fun x hx => hfs x (List.mem_cons_of_mem a hx)) e he

/-- C7: a request containing a client-streaming method makes `generate_code`
raise a fatal error, and `main'` then produces no serialized response output;
a request with no client-streaming method never raises the client-streaming
error. -/
theorem C7_client_streaming_aborts (request : CodeGeneratorRequest) :
    ((∃ pf ∈ request.proto_file, ∃ svc ∈ pf.service, ∃ m ∈ svc.method,
        m.client_streaming = true) →
      (∃ e, generate_code request = .error e) ∧ main' request = none) ∧
    ((∀ pf ∈ request.proto_file, ∀ svc ∈ pf.service, ∀ m ∈ svc.method,
        m.client_streaming = false) →
      generate_code request ≠ .error .clientStreaming) := by
  constructor
  · intro hstream
    obtain ⟨pf, hpf, svc, hsvc, m, hm, hcs⟩ := hstream
    have herr : ∃ e, generate_code request = .error e := by
      rcases hres : generate_code request with e | us
      · exact ⟨e, rfl⟩
      · exfalso
        obtain ⟨entry, hentry, hpfe⟩ := buildOutputMap_covers request.proto_file pf hpf
        have hall := compileUnits_ok_all (buildOutputMap request.proto_file) us hres
          entry hentry pf hpfe svc hsvc m hm
        rw [hcs] at hall
        exact Bool.noConfusion hall
    refine ⟨herr, ?_⟩
    rcases herr with ⟨e, he⟩
    unfold main'
    rw [he]
    rfl
  · intro hall hc
    obtain ⟨entry, hentry, pf, hpf, svc, hsvc, m, hm, hcs⟩ :=
      compileUnits_err_cs (buildOutputMap request.proto_file) hc
    have hpfreq : pf ∈ request.proto_file :=
      buildOutputMap_sound request.proto_file entry hentry pf hpf
    have hfalse := hall pf hpfreq svc hsvc m hm
    rw [hfalse] at hcs
    exact Bool.noConfusion hcs

/-- A file whose only service has a client-streaming method. -/
def c7StreamFile : FileDescriptorProto :=
  { name := "s.proto", package := "p", message_type := .nil, enum_type := [],
    service := [⟨"S", [⟨"Up", ".p.A", ".p.B", true, false⟩]⟩],
    source_code_info := [] }

/-- A file whose only service has no client-streaming method. -/
def c7PlainFile : FileDescriptorProto :=
  { name := "g.proto", package := "g", message_type := .nil, enum_type := [],
    service := [⟨"S", [⟨"Go", ".g.A", ".g.B", false, true⟩]⟩],
    source_code_info := [] }

/-- Witness for C7: the streaming request fails with no output; the plain
request never fails with the client-streaming error. -/
theorem C7_witness :
    ((∃ e, generate_code ⟨[c7StreamFile]⟩ = .error e) ∧ main' ⟨[c7StreamFile]⟩ = none) ∧
    generate_code ⟨[c7PlainFile]⟩ ≠ .error .clientStreaming :=
  ⟨(C7_client_streaming_aborts ⟨[c7StreamFile]⟩).1
     ⟨c7StreamFile, by simp, ⟨"S", [⟨"Up", ".p.A", ".p.B", true, false⟩]⟩, by simp [c7StreamFile],
      ⟨"Up", ".p.A", ".p.B", true, false⟩, by simp, rfl⟩,
   (C7_client_streaming_aborts ⟨[c7PlainFile]⟩).2
     (by
       intro pf hpf svc hsvc m hm
       simp only [c7PlainFile, List.mem_singleton] at hpf
       subst hpf
       simp only [List.mem_singleton] at hsvc
       subst hsvc
       simp only [List.mem_singleton] at hm
       subst hm
       rfl)⟩
